import Mathlib

/-!
Verification of the inventory-coverage dashboard's data pipeline
(translated from `src/app.py`): column validation, row normalization,
the coverage-weeks computation, status classification, and the
aggregation/summary logic behind the report tables.

Numeric cells are modelled as exact rationals.  The Korean column names of
the source are kept inside string literals; Lean identifiers use the
English names of the data model (매장명 = store_name, 상품명 = product_name,
상품코드 = product_code, BIZ = biz, 시즌 = season, 소비자가 = unit_price,
1/2/3주차_판매량 = week1/2/3, 현재_재고량 = stock, 재고_금액 = inv_value).
-/

namespace InvCov

/-- A cell of a numeric column as handed over by the spreadsheet parser:
a number, a text value, or a missing value (NaN). -/
inductive Cell where
  | num (q : ℚ)
  | text (s : String)
  | null
deriving DecidableEq

/-- One raw row of the uploaded table (after the parsing collaborator).
Identity cells are text-or-missing; the six numeric columns may arrive as
numbers, formatted strings, or missing. -/
structure RawRow where
  store_name : Option String
  product_name : Option String
  product_code : Option String
  biz : String
  season : String
  unit_price : Cell
  week1 : Cell
  week2 : Cell
  week3 : Cell
  stock : Cell
  inv_value : Cell
deriving DecidableEq

/-- One enriched row after normalization (all numeric fields coerced). -/
structure Row where
  store_name : String
  product_name : String
  product_code : String
  biz : String
  season : String
  unit_price : ℚ
  week1 : ℚ
  week2 : ℚ
  week3 : ℚ
  stock : ℚ
  inv_value : ℚ
deriving DecidableEq

/-- Removes every comma, currency token 원 and space character: models the
three sequential single-character replacements
`str.replace(',','').str.replace('원','').str.replace(' ','')`
of app.py line 364. -/
def cleanChars : List Char → List Char
  | [] => []
  | c :: cs => if c = ',' ∨ c = '원' ∨ c = ' ' then cleanChars cs else c :: cleanChars cs

/-- String form of `cleanChars`. -/
def clean (s : String) : String := ⟨cleanChars s.data⟩

/-- Numeric value of a decimal digit. -/
def digitVal (c : Char) : ℕ := c.toNat - '0'.toNat

/-- Value of a list of decimal digits. -/
def decimalVal (l : List Char) : ℕ := l.foldl (fun a c => 10 * a + digitVal c) 0

/-- Parses an unsigned decimal numeral: digits with at most one decimal
point and at least one digit in total; anything else is missing. -/
def parseUnsigned (l : List Char) : Option ℚ :=
  let ip := l.takeWhile Char.isDigit
  let rest := l.dropWhile Char.isDigit
  match rest with
  | [] => if ip.isEmpty then none else some (decimalVal ip)
  | '.' :: fp =>
      if fp.all Char.isDigit ∧ ¬(ip.isEmpty ∧ fp.isEmpty) then
        some ((decimalVal ip : ℚ) + (decimalVal fp : ℚ) / (10 : ℚ) ^ fp.length)
      else none
  | _ => none

/-- Models `pd.to_numeric(..., errors='coerce')` on a cleaned string: an
optional sign followed by an unsigned decimal numeral; values that fail to
parse become missing.  Exponent notation is not modelled. -/
def parseNum (s : String) : Option ℚ :=
  match s.data with
  | '+' :: l => parseUnsigned l
  | '-' :: l => (parseUnsigned l).map (fun q => -q)
  | l => parseUnsigned l

/-- Per-cell numeric coercion (app.py lines 362-365).  In the source the
text-cleaning branch fires per column when the column's dtype is object; a
numeric cell in such a column round-trips unchanged through `astype(str)`,
and a missing cell stays missing, so cell-level the coercion is: numbers
pass through, text is cleaned then parsed, missing stays missing. -/
def coerceCell : Cell → Option ℚ
  | .num q => some q
  | .text s => parseNum (clean s)
  | .null => none

/-- `data.dropna(subset=['매장명','상품명','상품코드'])` keeps a row iff all
three identity cells are present (app.py line 358). -/
def identityPresent (r : RawRow) : Bool :=
  r.store_name.isSome && r.product_name.isSome && r.product_code.isSome

/-- A row survives the numeric dropna iff all six required numeric cells
coerce to a number (app.py line 367). -/
def numericsOk (r : RawRow) : Bool :=
  (coerceCell r.unit_price).isSome && (coerceCell r.week1).isSome &&
  (coerceCell r.week2).isSome && (coerceCell r.week3).isSome &&
  (coerceCell r.stock).isSome && (coerceCell r.inv_value).isSome

/-- Builds the enriched row when every identity field is present and every
numeric field coerces; `none` otherwise. -/
def toRow? (r : RawRow) : Option Row := do
  let sn ← r.store_name
  let pn ← r.product_name
  let pc ← r.product_code
  let up ← coerceCell r.unit_price
  let w1 ← coerceCell r.week1
  let w2 ← coerceCell r.week2
  let w3 ← coerceCell r.week3
  let sq ← coerceCell r.stock
  let iv ← coerceCell r.inv_value
  pure ⟨sn, pn, pc, r.biz, r.season, up, w1, w2, w3, sq, iv⟩

/-- First dropna stage of app.py line 358. -/
def dropIdentity (t : List RawRow) : List RawRow := t.filter identityPresent

/-- The Numeric Normalizer (app.py lines 358-367): drop rows with missing
identity cells, coerce the six numeric columns, drop rows where any
coercion failed.  The source performs the coercion column-wise and then a
single dropna; row-wise this is exactly `toRow?`. -/
def normalize (t : List RawRow) : List Row := (dropIdentity t).filterMap toRow?

/-- Number of rows removed by normalization: those with a missing identity
cell or with some required numeric cell that fails to coerce. -/
def droppedCount (t : List RawRow) : ℕ :=
  (t.filter (fun r => !(identityPresent r && numericsOk r))).length

/-- The required-column contract of app.py lines 351-352 (source order). -/
def required_columns : List String :=
  ["매장명", "상품명", "상품코드", "BIZ", "시즌", "소비자가",
   "1주차_판매량", "2주차_판매량", "3주차_판매량", "현재_재고량", "재고_금액"]

/-- Python `str.strip()`: removes leading and trailing whitespace (models
`data.columns.str.strip()` of app.py line 349). -/
def strip (s : String) : String :=
  ⟨((s.data.dropWhile Char.isWhitespace).reverse.dropWhile Char.isWhitespace).reverse⟩

/-- `[col for col in required_columns if col not in data.columns]` after
`data.columns.str.strip()` (app.py lines 349-354). -/
def missing_columns (cols : List String) : List String :=
  required_columns.filter (fun c => !decide (c ∈ cols.map strip))

/-- `load_and_process_data` (app.py lines 345-390) restricted to the
pipeline core: the column list and the raw rows of the parsed table go
in; the result is either the missing-column report or the enriched rows. -/
def load_and_process_data (cols : List String) (t : List RawRow) :
    Except (List String) (List Row) :=
  if (missing_columns cols).isEmpty then .ok (normalize t) else .error (missing_columns cols)

/-- `(data['1주차_판매량'] + data['2주차_판매량'] + data['3주차_판매량']) / 3`
(app.py line 370). -/
def avg_weekly_sales (r : Row) : ℚ := (r.week1 + r.week2 + r.week3) / 3

/-- `np.where(avg == 0, 999, stock / avg)` (app.py lines 371-375). -/
def coverage_weeks (r : Row) : ℚ :=
  if avg_weekly_sales r = 0 then 999 else r.stock / avg_weekly_sales r

/-- `classify_status` (app.py lines 377-383). -/
def classify_status (weeks : ℚ) : String :=
  if weeks < 2 then "critical" else if weeks < 4 then "warning" else "good"

/-- `data['status'] = data['coverage_weeks'].apply(classify_status)`
(app.py line 385). -/
def status (r : Row) : String := classify_status (coverage_weeks r)

/-- pandas `Series.unique()`: distinct values in order of first
appearance. -/
def pdUnique (l : List String) : List String :=
  l.foldl (fun acc x => if x ∈ acc then acc else acc ++ [x]) []

/-- Python's lexicographic code-point order on strings, stated on the
character lists so that it evaluates. -/
def strle (a b : String) : Prop := a.data ≤ b.data

instance : DecidableRel strle := fun a b => inferInstanceAs (Decidable (a.data ≤ b.data))

/-- Python `sorted(...)` on strings: stable ascending sort in
lexicographic code-point order. -/
def pdSorted (l : List String) : List String := List.insertionSort strle l

/-- The fixed canonical BIZ order of app.py (lines 114, 511, 603, ...). -/
def biz_order : List String := ["AP", "FW", "EQ"]

/-- `available_biz + other_biz` of app.py lines 603-606: canonical codes
that occur in the data, then all other observed codes sorted ascending. -/
def all_biz (data : List Row) : List String :=
  let uniq := pdUnique (data.map Row.biz)
  biz_order.filter (fun b => decide (b ∈ uniq))
    ++ (pdSorted uniq).filter (fun b => decide (b ∉ biz_order))

/-- Python `round(x, 1)` scaled integer part: round half to even.  Binary
floating-point representation effects are not modelled. -/
def roundHalfEven (q : ℚ) : ℤ :=
  if q - Int.floor q < 1/2 then Int.floor q
  else if 1/2 < q - Int.floor q then Int.floor q + 1
  else if Int.floor q % 2 = 0 then Int.floor q else Int.floor q + 1

/-- Python `round(x, 1)`. -/
def round1 (q : ℚ) : ℚ := (roundHalfEven (q * 10) : ℚ) / 10

/-- Python `int(...)`: truncation toward zero. -/
def pyInt (q : ℚ) : ℤ := if q < 0 then Int.ceil q else Int.floor q

/-- pandas `Series.mean()`: NaN (modelled as `none`) on an empty
series. -/
def series_mean (l : List ℚ) : Option ℚ :=
  if l.length = 0 then none else some (l.sum / l.length)

/-- `critical_ratio = len(data[data['status'] == 'critical']) / len(data) * 100`
(app.py line 1032).  The Python division raises ZeroDivisionError on an
empty dataset; the failure is modelled as `none`. -/
def critical_ratio (data : List Row) : Option ℚ :=
  if data.length = 0 then none
  else some (((data.filter (fun r => status r == "critical")).length : ℚ) / data.length * 100)

/-- `(critical_count / len(biz_data) * 100) if len(biz_data) > 0 else 0`
(app.py line 182): per-BIZ risk percentage of the e-mail report, guarded
for an empty group. -/
def biz_risk_pct (critical_count group_size : ℕ) : ℚ :=
  if 0 < group_size then (critical_count : ℚ) / group_size * 100 else 0

/-- One aggregate summary row (BIZ-level or season-level). -/
structure AggRow where
  key : String
  total_count : ℕ
  avg_coverage : Option ℚ
  critical_count : ℕ
  warning_count : ℕ
  good_count : ℕ
  stock_qty : ℤ
  inv_value : ℚ
deriving DecidableEq

/-- One summary row over a set of rows (app.py lines 612-621 and 701-710).
The source truncates the inventory-value sum with `int()` and inserts
comma separators only while building the display string; the numeric sum
itself is what the row carries here.  `round(mean, 1)` of an empty
selection is NaN, modelled as `none`. -/
def groupAgg (key : String) (rows : List Row) : AggRow :=
  { key := key
    total_count := rows.length
    avg_coverage := (series_mean (rows.map coverage_weeks)).map round1
    critical_count := (rows.filter (fun r => status r == "critical")).length
    warning_count := (rows.filter (fun r => status r == "warning")).length
    good_count := (rows.filter (fun r => status r == "good")).length
    stock_qty := pyInt ((rows.map Row.stock).sum)
    inv_value := (rows.map Row.inv_value).sum }

/-- `biz_analysis` of app.py lines 609-633: one row per observed BIZ code
in canonical-then-sorted order, plus the TOTAL row appended last. -/
def biz_analysis (data : List Row) : List AggRow :=
  (all_biz data).map (fun b => groupAgg b (data.filter (fun r => r.biz == b)))
    ++ [groupAgg "TOTAL" data]

/-- `sorted(data['시즌'].unique())` (app.py line 699). -/
def season_keys (data : List Row) : List String :=
  pdSorted (pdUnique (data.map Row.season))

/-- `season_analysis` of app.py lines 698-722: one row per season in
ascending order, plus the TOTAL row appended last. -/
def season_analysis (data : List Row) : List AggRow :=
  (season_keys data).map (fun s => groupAgg s (data.filter (fun r => r.season == s)))
    ++ [groupAgg "TOTAL" data]

/-- One per-store summary row (app.py lines 560-568). -/
structure StoreRow where
  store : String
  avg_coverage : Option ℚ
  product_code_count : ℕ
  critical_count : ℕ
  warning_count : ℕ
  good_count : ℕ
  inv_value : ℚ
deriving DecidableEq

/-- `data[data['매장명'] != '온라인']` (app.py line 554): the rows of every
store except the online pseudo-store. -/
def offline (data : List Row) : List Row :=
  data.filter (fun r => r.store_name != "온라인")

/-- The store keys of the per-store summary: `offline_data['매장명'].unique()`
(app.py line 558), in order of first appearance. -/
def store_keys (data : List Row) : List String :=
  pdUnique ((offline data).map Row.store_name)

/-- One row of `store_analysis` (app.py lines 560-568). -/
def storeAgg (data : List Row) (s : String) : StoreRow :=
  let rows := (offline data).filter (fun r => r.store_name == s)
  { store := s
    avg_coverage := (series_mean (rows.map coverage_weeks)).map round1
    product_code_count := (pdUnique (rows.map Row.product_code)).length
    critical_count := (rows.filter (fun r => status r == "critical")).length
    warning_count := (rows.filter (fun r => status r == "warning")).length
    good_count := (rows.filter (fun r => status r == "good")).length
    inv_value := (rows.map Row.inv_value).sum }

/-- `store_analysis` of app.py lines 557-570: per-store summary over the
offline rows, keys in first-appearance order; no TOTAL row is appended. -/
def store_analysis (data : List Row) : List StoreRow :=
  (store_keys data).map (storeAgg data)

/-- pandas `sort_values(key, ascending=False)` modelled as a stable
descending sort. -/
def sortDescBy (key : α → ℚ) (l : List α) : List α :=
  List.insertionSort (fun a b => key b ≤ key a) l

/-- Stable ascending sort by a numeric key. -/
def sortAscBy (key : α → ℚ) (l : List α) : List α :=
  List.insertionSort (fun a b => key a ≤ key b) l

/-- pandas `nlargest(n, key)` with the default keep='first': stable
descending sort, first `n` rows. -/
def nlargestBy (n : ℕ) (key : α → ℚ) (l : List α) : List α :=
  (sortDescBy key l).take n

/-- pandas `nsmallest(n, key)`. -/
def nsmallestBy (n : ℕ) (key : α → ℚ) (l : List α) : List α :=
  (sortAscBy key l).take n

/-- The "양호 상위 5개 매장" selection of app.py lines 572-585: rank the
offline stores by summed inventory value descending; with at least six
stores take ranks 2-6 (iloc[1:6]) and re-sort them by good-product count
for display; with fewer stores fall back to the five stores with the most
good-status products. -/
def good_top5_stores (data : List Row) : List StoreRow :=
  let df := store_analysis data
  let ranking := sortDescBy StoreRow.inv_value df
  if 6 ≤ ranking.length then
    sortDescBy (fun s => (s.good_count : ℚ)) ((ranking.drop 1).take 5)
  else
    nlargestBy 5 (fun s => (s.good_count : ℚ)) df

/-- `data[data['BIZ'] == 'AP']` (app.py line 1181). -/
def ap_rows (data : List Row) : List Row := data.filter (fun r => r.biz == "AP")

/-- `data[data['BIZ'] == 'FW']` (app.py line 1228). -/
def fw_rows (data : List Row) : List Row := data.filter (fun r => r.biz == "FW")

/-- `ap_data[ap_data['coverage_weeks'] < 999].nlargest(10, 'coverage_weeks')`
(app.py line 1277). -/
def ap_high_coverage (data : List Row) : List Row :=
  nlargestBy 10 coverage_weeks
    ((ap_rows data).filter (fun r => decide (coverage_weeks r < 999)))

/-- `ap_data.nsmallest(10, 'coverage_weeks')` (app.py line 1298). -/
def ap_low_coverage (data : List Row) : List Row :=
  nsmallestBy 10 coverage_weeks (ap_rows data)

/-- `fw_data[fw_data['coverage_weeks'] < 999].nlargest(10, 'coverage_weeks')`
(app.py line 1319). -/
def fw_high_coverage (data : List Row) : List Row :=
  nlargestBy 10 coverage_weeks
    ((fw_rows data).filter (fun r => decide (coverage_weeks r < 999)))

/-- `fw_data.nsmallest(10, 'coverage_weeks')` (app.py line 1340). -/
def fw_low_coverage (data : List Row) : List Row :=
  nsmallestBy 10 coverage_weeks (fw_rows data)

/-- `coverage_data = data[data['coverage_weeks'] < 999]` (app.py line
915): the rows entering the coverage-distribution treemap binning. -/
def coverage_data (data : List Row) : List Row :=
  data.filter (fun r => decide (coverage_weeks r < 999))

def rowSentinel : Row := ⟨"S1", "P1", "C1", "AP", "25SS", 10, 0, 0, 0, 7, 100⟩

def rowEmpty : Row := ⟨"S1", "P2", "C2", "AP", "25SS", 10, 0, 0, 0, 0, 100⟩

def rowActive : Row := ⟨"S1", "P3", "C3", "AP", "25SS", 10, 3, 3, 3, 4, 100⟩

/-- A concrete enriched dataset with two offline stores (used to exhibit
the shape of the store-level summary). -/
def d4 : List Row :=
  [⟨"S1", "P1", "C1", "AP", "SS", 10, 1, 1, 1, 10, 100⟩,
   ⟨"S2", "P2", "C2", "FW", "SS", 10, 1, 1, 1, 10, 50⟩]

/-- A raw row that normalizes cleanly. -/
def rawGood : RawRow :=
  ⟨some "S1", some "P1", some "C1", "AP", "SS",
   .num 10, .num 1, .num 1, .num 1, .num 10, .num 100⟩

/-- A raw row dropped for a missing identity cell. -/
def rawBad : RawRow :=
  ⟨none, some "P2", some "C2", "AP", "SS",
   .num 10, .num 1, .num 1, .num 1, .num 10, .num 50⟩

def t5a : List RawRow := [rawGood]

def t5b : List RawRow := [rawGood, rawBad]

/-- Columns of a table that lacks `BIZ` and `시즌` but has an extra
column. -/
def cols6 : List String :=
  ["매장명", "상품명", "상품코드", "소비자가", "1주차_판매량", "2주차_판매량",
   "3주차_판매량", "현재_재고량", "재고_금액", "기타"]

/-- A raw row whose numeric cells arrive as formatted text. -/
def rawText : RawRow :=
  ⟨some "S2", some "P9", some "C9", "FW", "FW23",
   .text "1,234원", .text " 7 ", .num 0, .num 2, .text "12", .num 77⟩

def t7 : List RawRow := [rawGood, rawBad, rawText]

instance : IsTotal String strle := ⟨fun a b => le_total a.data b.data⟩

instance : IsTrans String strle := ⟨fun _ _ _ h1 h2 => le_trans h1 h2⟩

/-- A dataset whose observed BIZ codes are Z, FW, AP, EQ (in appearance
order). -/
def d8biz : List Row :=
  [⟨"S1", "P1", "C1", "Z", "SS", 10, 1, 1, 1, 10, 100⟩,
   ⟨"S1", "P2", "C2", "FW", "SS", 10, 1, 1, 1, 10, 100⟩,
   ⟨"S1", "P3", "C3", "AP", "SS", 10, 1, 1, 1, 10, 100⟩,
   ⟨"S1", "P4", "C4", "EQ", "SS", 10, 1, 1, 1, 10, 100⟩]

/-- A dataset whose stores appear in the order B, A. -/
def d8s : List Row :=
  [⟨"B", "P1", "C1", "AP", "SS", 10, 1, 1, 1, 10, 100⟩,
   ⟨"A", "P2", "C2", "AP", "SS", 10, 1, 1, 1, 10, 50⟩]

/-- Six offline stores with pairwise distinct inventory values. -/
def dW9 : List Row :=
  [⟨"S1", "P1", "C1", "AP", "SS", 10, 1, 1, 1, 40, 600⟩,
   ⟨"S2", "P2", "C2", "AP", "SS", 10, 1, 1, 1, 40, 500⟩,
   ⟨"S3", "P3", "C3", "AP", "SS", 10, 1, 1, 1, 40, 400⟩,
   ⟨"S4", "P4", "C4", "AP", "SS", 10, 1, 1, 1, 40, 300⟩,
   ⟨"S5", "P5", "C5", "AP", "SS", 10, 1, 1, 1, 40, 200⟩,
   ⟨"S6", "P6", "C6", "AP", "SS", 10, 1, 1, 1, 40, 100⟩]

def rowA9 : Row := ⟨"A", "P1", "C1", "AP", "SS", 10, 1, 1, 1, 40, 100⟩

def rowB9 : Row := ⟨"B", "P2", "C2", "FW", "SS", 10, 1, 1, 1, 40, 50⟩

/-- A dataset with only two offline stores; store A ranks first by
inventory value. -/
def d9 : List Row := [rowA9, rowB9]

/-- The AP zero-sales sentinel row alone: its coverage is the 999
sentinel, yet it is selected by the unfiltered lowest-coverage view. -/
def d10 : List Row := [rowSentinel]

def dW10 : List Row := [rowActive]

/-! ### Helper lemmas -/

theorem pdUnique_foldl_mem (l : List String) :
    ∀ (acc : List String) (x : String),
      (x ∈ l.foldl (fun acc x => if x ∈ acc then acc else acc ++ [x]) acc)
        ↔ x ∈ acc ∨ x ∈ l := by
  induction l with
  | nil => simp
  | cons a l ih =>
      intro acc x
      simp only [List.foldl_cons]
      by_cases h : a ∈ acc
      · rw [if_pos h, ih]
        constructor
        · rintro (hx | hx)
          · exact Or.inl hx
          · exact Or.inr (List.mem_cons_of_mem _ hx)
        · rintro (hx | hx)
          · exact Or.inl hx
          · rcases List.mem_cons.mp hx with rfl | hx
            · exact Or.inl h
            · exact Or.inr hx
      · rw [if_neg h, ih]
        simp only [List.mem_append, List.mem_singleton, List.mem_cons]
        tauto

theorem mem_pdUnique {l : List String} {x : String} : x ∈ pdUnique l ↔ x ∈ l := by
  rw [pdUnique, pdUnique_foldl_mem]
  simp

theorem pdUnique_foldl_nodup (l : List String) :
    ∀ acc : List String, acc.Nodup →
      (l.foldl (fun acc x => if x ∈ acc then acc else acc ++ [x]) acc).Nodup := by
  induction l with
  | nil => intro acc h; simpa using h
  | cons a l ih =>
      intro acc h
      simp only [List.foldl_cons]
      by_cases ha : a ∈ acc
      · rw [if_pos ha]; exact ih acc h
      · rw [if_neg ha]
        refine ih (acc ++ [a]) ?_
        exact List.Nodup.append h (List.nodup_singleton a)
          (by simpa [List.disjoint_singleton] using ha)

theorem nodup_pdUnique {l : List String} : (pdUnique l).Nodup :=
  pdUnique_foldl_nodup l [] List.nodup_nil

theorem mem_pdSorted {l : List String} {x : String} : x ∈ pdSorted l ↔ x ∈ l :=
  (List.perm_insertionSort strle l).mem_iff

theorem nodup_pdSorted {l : List String} (h : l.Nodup) : (pdSorted l).Nodup :=
  ((List.perm_insertionSort strle l).nodup_iff).mpr h

theorem mem_all_biz {data : List Row} {x : String} :
    x ∈ all_biz data ↔ x ∈ data.map Row.biz := by
  simp only [all_biz, List.mem_append, List.mem_filter, decide_eq_true_eq,
    mem_pdSorted, mem_pdUnique]
  constructor
  · rintro (⟨_, hx⟩ | ⟨hx, _⟩) <;> exact hx
  · intro hx
    by_cases hb : x ∈ biz_order
    · exact Or.inl ⟨hb, hx⟩
    · exact Or.inr ⟨hx, hb⟩

theorem nodup_all_biz (data : List Row) : (all_biz data).Nodup := by
  refine List.Nodup.append ?_ ?_ ?_
  · exact List.Nodup.filter _ (by decide)
  · exact List.Nodup.filter _ (nodup_pdSorted nodup_pdUnique)
  · intro x hx hx'
    have h1 : x ∈ biz_order := (List.mem_filter.mp hx).1
    have h2 : ¬ x ∈ biz_order := by
      simpa using (List.mem_filter.mp hx').2
    exact h2 h1

theorem mem_season_keys {data : List Row} {x : String} :
    x ∈ season_keys data ↔ x ∈ data.map Row.season := by
  rw [season_keys, mem_pdSorted, mem_pdUnique]

theorem nodup_season_keys (data : List Row) : (season_keys data).Nodup :=
  nodup_pdSorted nodup_pdUnique

theorem sum_map_ite_eq_of_nodup {ks : List String} (h : ks.Nodup) {a : String}
    (ha : a ∈ ks) (c : ℚ) :
    (ks.map (fun k => if a = k then c else 0)).sum = c := by
  induction ks with
  | nil => cases ha
  | cons k ks ih =>
      rcases List.mem_cons.mp ha with rfl | ha'
      · have hnotin : a ∉ ks := (List.nodup_cons.mp h).1
        have hz : (ks.map (fun k => if a = k then c else 0)).sum = 0 := by
          rw [List.sum_eq_zero]
          intro x hx
          rcases List.mem_map.mp hx with ⟨b, hb, rfl⟩
          rw [if_neg]
          rintro rfl
          exact hnotin hb
        simp [hz]
      · have hk : k ∉ ks := (List.nodup_cons.mp h).1
        have hne : a ≠ k := by rintro rfl; exact hk ha'
        simp only [List.map_cons, List.sum_cons, if_neg hne, zero_add]
        exact ih (List.nodup_cons.mp h).2 ha'

theorem sum_filter_groups (ks : List String) (hnd : ks.Nodup) (data : List Row)
    (f : Row → String) (v : Row → ℚ) (hcov : ∀ r ∈ data, f r ∈ ks) :
    (ks.map (fun k => ((data.filter (fun r => f r == k)).map v).sum)).sum
      = (data.map v).sum := by
  induction data with
  | nil => simp
  | cons r d ih =>
      have hk : f r ∈ ks := hcov r (by simp)
      have ihd := ih (fun r hr => hcov r (List.mem_cons_of_mem _ hr))
      have expand : ∀ k : String,
          (((r :: d).filter (fun r => f r == k)).map v).sum
            = (if f r = k then v r else 0)
              + ((d.filter (fun r => f r == k)).map v).sum := by
        intro k
        by_cases h : f r = k <;> simp [List.filter_cons, h]
      calc (ks.map (fun k => (((r :: d).filter (fun r => f r == k)).map v).sum)).sum
          = (ks.map (fun k => (if f r = k then v r else 0)
              + ((d.filter (fun r => f r == k)).map v).sum)).sum := by
            congr 1
            exact List.map_congr_left (fun k _ => expand k)
        _ = (ks.map (fun k => if f r = k then v r else 0)).sum
              + (ks.map (fun k => ((d.filter (fun r => f r == k)).map v).sum)).sum := by
            rw [← List.sum_map_add]
        _ = v r + (d.map v).sum := by rw [sum_map_ite_eq_of_nodup hnd hk, ihd]
        _ = ((r :: d).map v).sum := by simp

/-! ### Claim theorems -/

/-- C1: for every normalized row the Coverage Calculator sets
avg_weekly_sales to the three-week mean, and coverage_weeks to the 999
sentinel exactly when the average is zero (also in the edge case where
the stock is zero as well), and to stock divided by the average
otherwise; the computation is pure and total. -/
theorem coverage_calculator_spec (r : Row) :
    avg_weekly_sales r = (r.week1 + r.week2 + r.week3) / 3
    ∧ (avg_weekly_sales r = 0 → coverage_weeks r = 999)
    ∧ (avg_weekly_sales r ≠ 0 →
        coverage_weeks r = r.stock / avg_weekly_sales r
        ∧ coverage_weeks r * avg_weekly_sales r = r.stock)
    ∧ (r.stock = 0 → avg_weekly_sales r = 0 → coverage_weeks r = 999) := by
  refine ⟨rfl, ?_, ?_, ?_⟩
  · intro h
    rw [coverage_weeks, if_pos h]
  · intro h
    rw [coverage_weeks, if_neg h]
    exact ⟨rfl, div_mul_cancel₀ _ h⟩
  · intro _ h
    rw [coverage_weeks, if_pos h]

theorem coverage_calculator_spec_witness :
    coverage_weeks rowSentinel = 999
    ∧ coverage_weeks rowEmpty = 999
    ∧ coverage_weeks rowActive = rowActive.stock / avg_weekly_sales rowActive :=
  ⟨(coverage_calculator_spec rowSentinel).2.1 (by norm_num [avg_weekly_sales, rowSentinel]),
   (coverage_calculator_spec rowEmpty).2.2.2 (by norm_num [rowEmpty])
     (by norm_num [avg_weekly_sales, rowEmpty]),
   ((coverage_calculator_spec rowActive).2.2.1
     (by norm_num [avg_weekly_sales, rowActive])).1⟩

/-- C2: the Status Classifier is a pure total function of coverage_weeks
alone, taking coverage below 2 to critical, between 2 inclusive and 4
exclusive to warning, and 4 or above to good; the boundary values 1.999,
2.0, 3.999 and 4.0 classify as stated and a zero-sales row carries the
999 sentinel and classifies as good. -/
theorem status_classifier_spec :
    (∀ w : ℚ, w < 2 → classify_status w = "critical")
    ∧ (∀ w : ℚ, 2 ≤ w → w < 4 → classify_status w = "warning")
    ∧ (∀ w : ℚ, 4 ≤ w → classify_status w = "good")
    ∧ classify_status (1999/1000) = "critical"
    ∧ classify_status 2 = "warning"
    ∧ classify_status (3999/1000) = "warning"
    ∧ classify_status 4 = "good"
    ∧ (∀ r : Row, status r = classify_status (coverage_weeks r))
    ∧ (∀ r : Row, r.week1 = 0 → r.week2 = 0 → r.week3 = 0 →
        coverage_weeks r = 999 ∧ status r = "good") := by
  have hcrit : ∀ w : ℚ, w < 2 → classify_status w = "critical" := by
    intro w h
    rw [classify_status, if_pos h]
  have hwarn : ∀ w : ℚ, 2 ≤ w → w < 4 → classify_status w = "warning" := by
    intro w h1 h2
    rw [classify_status, if_neg (not_lt.mpr h1), if_pos h2]
  have hgood : ∀ w : ℚ, 4 ≤ w → classify_status w = "good" := by
    intro w h
    rw [classify_status, if_neg (not_lt.mpr (by linarith)), if_neg (not_lt.mpr h)]
  refine ⟨hcrit, hwarn, hgood, ?_, ?_, ?_, ?_, fun _ => rfl, ?_⟩
  · exact hcrit _ (by norm_num)
  · exact hwarn _ (by norm_num) (by norm_num)
  · exact hwarn _ (by norm_num) (by norm_num)
  · exact hgood _ (by norm_num)
  · intro r h1 h2 h3
    have havg : avg_weekly_sales r = 0 := by
      rw [avg_weekly_sales, h1, h2, h3]; norm_num
    have hc : coverage_weeks r = 999 := by rw [coverage_weeks, if_pos havg]
    exact ⟨hc, by rw [status, hc]; exact hgood _ (by norm_num)⟩

theorem status_classifier_spec_witness :
    classify_status (1999/1000) = "critical"
    ∧ classify_status (3/2) = "critical"
    ∧ classify_status 3 = "warning"
    ∧ classify_status 999 = "good"
    ∧ status rowSentinel = "good" :=
  ⟨status_classifier_spec.2.2.2.1,
   status_classifier_spec.1 (3/2) (by norm_num),
   status_classifier_spec.2.1 3 (by norm_num) (by norm_num),
   status_classifier_spec.2.2.1 999 (by norm_num),
   (status_classifier_spec.2.2.2.2.2.2.2.2 rowSentinel (by norm_num [rowSentinel])
     (by norm_num [rowSentinel]) (by norm_num [rowSentinel])).2⟩

/-- C3 counterexample: on an empty dataset the comprehensive-report
critical ratio (app.py line 1032) divides by zero — a failure, not a
zero-valued result — and the mean coverage over zero rows is NaN, not
zero. -/
theorem aggregator_empty_fails :
    critical_ratio [] = none
    ∧ series_mean (([] : List Row).map coverage_weeks) = none := by
  constructor <;> rfl

/-- C3 amended: the per-group risk percentage of the e-mail report is
guarded and yields 0 on an empty group, and every group the Aggregator
actually forms (one per observed key) is nonempty, so per-group
statistics never divide by zero; but on an empty dataset the
comprehensive-report critical ratio fails with a division by zero and the
mean coverage is NaN rather than zero. -/
theorem aggregator_empty_guard :
    (∀ c : ℕ, biz_risk_pct c 0 = 0)
    ∧ (∀ c n : ℕ, 0 < n → biz_risk_pct c n = (c : ℚ) / n * 100)
    ∧ (∀ data : List Row, data ≠ [] →
        (∃ q, critical_ratio data = some q)
        ∧ (∃ q, series_mean (data.map coverage_weeks) = some q))
    ∧ (∀ data : List Row, ∀ b ∈ all_biz data,
        data.filter (fun r => r.biz == b) ≠ [])
    ∧ critical_ratio [] = none := by
  refine ⟨?_, ?_, ?_, ?_, rfl⟩
  · intro c
    rw [biz_risk_pct, if_neg (lt_irrefl 0)]
  · intro c n h
    rw [biz_risk_pct, if_pos h]
  · intro data h
    have hl : data.length ≠ 0 := fun h0 => h (List.length_eq_zero.mp h0)
    constructor
    · exact ⟨_, by rw [critical_ratio, if_neg hl]⟩
    · exact ⟨_, by rw [series_mean, if_neg (by simpa using hl)]⟩
  · intro data b hb
    rcases List.mem_map.mp (mem_all_biz.mp hb) with ⟨r, hr, rfl⟩
    exact List.ne_nil_of_mem (List.mem_filter.mpr ⟨hr, by simp⟩)

theorem aggregator_empty_guard_witness :
    (∃ q, critical_ratio [rowActive] = some q)
    ∧ (∃ q, series_mean ([rowActive].map coverage_weeks) = some q)
    ∧ biz_risk_pct 3 4 = (3 : ℚ) / 4 * 100 :=
  ⟨(aggregator_empty_guard.2.2.1 [rowActive] (by simp)).1,
   (aggregator_empty_guard.2.2.1 [rowActive] (by simp)).2,
   aggregator_empty_guard.2.1 3 4 (by norm_num)⟩

/-- C4 counterexample: the store-level summary (app.py lines 557-570)
carries no TOTAL row at all — the claim's "every grouping field
(business unit, season, store)" fails for the store grouping. -/
theorem store_total_row_missing :
    (store_analysis d4).map StoreRow.store = ["S1", "S2"]
    ∧ ((store_analysis d4).map StoreRow.store).filter (fun s => s == "TOTAL") = [] := by
  constructor <;> decide

/-- C4 amended: for the business-unit and season groupings the summary
carries a synthesized TOTAL row appended last and computed over the full
dataset, and the per-group inventory-value sums add up exactly to the
TOTAL row's inventory-value sum, which is the sum over the ungrouped
dataset; the store-level summary however carries no TOTAL row. -/
theorem total_row_sum_consistency (data : List Row) :
    (biz_analysis data).getLast? = some (groupAgg "TOTAL" data)
    ∧ (groupAgg "TOTAL" data).key = "TOTAL"
    ∧ ((biz_analysis data).dropLast.map AggRow.inv_value).sum
        = (data.map Row.inv_value).sum
    ∧ (groupAgg "TOTAL" data).inv_value = (data.map Row.inv_value).sum
    ∧ (season_analysis data).getLast? = some (groupAgg "TOTAL" data)
    ∧ ((season_analysis data).dropLast.map AggRow.inv_value).sum
        = (data.map Row.inv_value).sum := by
  have hbiz : ((biz_analysis data).dropLast.map AggRow.inv_value).sum
      = (data.map Row.inv_value).sum := by
    rw [biz_analysis, List.dropLast_concat, List.map_map]
    have : (AggRow.inv_value ∘ fun b => groupAgg b (data.filter (fun r => r.biz == b)))
        = fun k => ((data.filter (fun r => r.biz == k)).map Row.inv_value).sum := by
      funext b
      rfl
    rw [this]
    exact sum_filter_groups (all_biz data) (nodup_all_biz data) data Row.biz
      Row.inv_value (fun r hr => mem_all_biz.mpr (List.mem_map_of_mem Row.biz hr))
  have hseason : ((season_analysis data).dropLast.map AggRow.inv_value).sum
      = (data.map Row.inv_value).sum := by
    rw [season_analysis, List.dropLast_concat, List.map_map]
    have : (AggRow.inv_value ∘ fun s => groupAgg s (data.filter (fun r => r.season == s)))
        = fun k => ((data.filter (fun r => r.season == k)).map Row.inv_value).sum := by
      funext s
      rfl
    rw [this]
    exact sum_filter_groups (season_keys data) (nodup_season_keys data) data Row.season
      Row.inv_value (fun r hr => mem_season_keys.mpr (List.mem_map_of_mem Row.season hr))
  exact ⟨by rw [biz_analysis]; exact List.getLast?_concat _, rfl, hbiz, rfl,
    by rw [season_analysis]; exact List.getLast?_concat _, hseason⟩

theorem toRow?_isSome (r : RawRow) :
    (toRow? r).isSome = (identityPresent r && numericsOk r) := by
  unfold toRow? identityPresent numericsOk
  cases r.store_name <;> cases r.product_name <;> cases r.product_code <;>
    cases coerceCell r.unit_price <;> cases coerceCell r.week1 <;>
    cases coerceCell r.week2 <;> cases coerceCell r.week3 <;>
    cases coerceCell r.stock <;> cases coerceCell r.inv_value <;> rfl

/-- C5 amended: normalization is total and conserves row counts —
`len(enriched) + dropped == len(validated)` where `dropped` counts the
rows with a missing identity cell or an uncoercible numeric cell — but
the source never exposes the dropped count to the caller. -/
theorem normalization_conservation (t : List RawRow) :
    (normalize t).length + droppedCount t = t.length := by
  induction t with
  | nil => rfl
  | cons r t ih =>
      rw [normalize, dropIdentity, droppedCount, List.filter_cons, List.filter_cons]
      rw [normalize, dropIdentity, droppedCount] at ih
      cases h1 : identityPresent r
      · simp only [h1, Bool.false_and, Bool.not_false]
        simp only [Bool.false_eq_true, if_false, if_true, List.length_cons]
        omega
      · cases h2 : numericsOk r
        · have he : toRow? r = none := by
            have hs := toRow?_isSome r
            rw [h1, h2] at hs
            exact Option.not_isSome_iff_eq_none.mp (by simp [hs])
          simp only [h1, h2, Bool.and_false, Bool.not_false]
          simp only [if_true, List.filterMap_cons, he, List.length_cons]
          omega
        · have hs : (toRow? r).isSome = true := by rw [toRow?_isSome, h1, h2]; rfl
          rcases Option.isSome_iff_exists.mp hs with ⟨e, he⟩
          simp only [h1, h2, Bool.and_self, Bool.not_true]
          simp only [Bool.false_eq_true, if_false, if_true, List.filterMap_cons, he,
            List.length_cons]
          omega

/-- C5 counterexample: two validated tables with different dropped-row
counts produce identical outputs of `load_and_process_data`, so the
dropped count is not made available to the caller in any form. -/
theorem dropped_count_not_observable :
    load_and_process_data required_columns t5a
      = load_and_process_data required_columns t5b
    ∧ droppedCount t5a = 0
    ∧ droppedCount t5b = 1
    ∧ t5a.length = 1 ∧ t5b.length = 2 := by
  refine ⟨rfl, by decide, by decide, by decide, by decide⟩

/-- C6: validation fails exactly when some required column is absent from
the trimmed column names; on failure it reports every absent required
column in the fixed order of the required-column list, independently of
whatever other columns are present — a table lacking `BIZ`
(business_unit) and `시즌` (season) reports exactly those two, in that
order — and the report is a returned value, not an exception. -/
theorem schema_validation_spec (cols : List String) (t : List RawRow) :
    ((∃ rows, load_and_process_data cols t = .ok rows)
       ↔ ∀ c ∈ required_columns, c ∈ cols.map strip)
    ∧ (∀ m, load_and_process_data cols t = .error m →
        m = required_columns.filter (fun c => !decide (c ∈ cols.map strip)) ∧ m ≠ [])
    ∧ ("BIZ" ∉ cols.map strip → "시즌" ∉ cols.map strip →
        (∀ c ∈ required_columns, c ≠ "BIZ" → c ≠ "시즌" → c ∈ cols.map strip) →
        load_and_process_data cols t = .error ["BIZ", "시즌"]) := by
  have hempty : (missing_columns cols).isEmpty = true
      ↔ ∀ c ∈ required_columns, c ∈ cols.map strip := by
    rw [List.isEmpty_iff, missing_columns, List.filter_eq_nil_iff]
    constructor
    · intro h c hc
      simpa using h c hc
    · intro h c hc
      simpa using h c hc
  refine ⟨?_, ?_, ?_⟩
  · constructor
    · rintro ⟨rows, hrows⟩
      rw [load_and_process_data] at hrows
      by_cases h : (missing_columns cols).isEmpty
      · exact hempty.mp h
      · rw [if_neg h] at hrows
        cases hrows
    · intro h
      rw [load_and_process_data, if_pos (hempty.mpr h)]
      exact ⟨_, rfl⟩
  · intro m hm
    rw [load_and_process_data] at hm
    by_cases h : (missing_columns cols).isEmpty
    · rw [if_pos h] at hm
      cases hm
    · rw [if_neg h] at hm
      cases hm
      refine ⟨rfl, ?_⟩
      intro hnil
      apply h
      rw [List.isEmpty_iff]
      exact hnil
  · intro hB hS hrest
    have h01 : "매장명" ∈ cols.map strip :=
      hrest _ (by simp [required_columns]) (by decide) (by decide)
    have h02 : "상품명" ∈ cols.map strip :=
      hrest _ (by simp [required_columns]) (by decide) (by decide)
    have h03 : "상품코드" ∈ cols.map strip :=
      hrest _ (by simp [required_columns]) (by decide) (by decide)
    have h04 : "시즌" ∉ cols.map strip := hS
    have h05 : "소비자가" ∈ cols.map strip :=
      hrest _ (by simp [required_columns]) (by decide) (by decide)
    have h06 : "1주차_판매량" ∈ cols.map strip :=
      hrest _ (by simp [required_columns]) (by decide) (by decide)
    have h07 : "2주차_판매량" ∈ cols.map strip :=
      hrest _ (by simp [required_columns]) (by decide) (by decide)
    have h08 : "3주차_판매량" ∈ cols.map strip :=
      hrest _ (by simp [required_columns]) (by decide) (by decide)
    have h09 : "현재_재고량" ∈ cols.map strip :=
      hrest _ (by simp [required_columns]) (by decide) (by decide)
    have h10 : "재고_금액" ∈ cols.map strip :=
      hrest _ (by simp [required_columns]) (by decide) (by decide)
    have hmc : missing_columns cols = ["BIZ", "시즌"] := by
      rw [missing_columns, required_columns]
      simp only [List.filter_cons, List.filter_nil,
        decide_eq_true h01, decide_eq_true h02, decide_eq_true h03,
        decide_eq_false hB, decide_eq_false hS, decide_eq_true h05,
        decide_eq_true h06, decide_eq_true h07, decide_eq_true h08,
        decide_eq_true h09, decide_eq_true h10]
      rfl
    rw [load_and_process_data, hmc]
    rfl

theorem schema_validation_spec_witness :
    load_and_process_data cols6 [] = .error ["BIZ", "시즌"] :=
  (schema_validation_spec cols6 []).2.2 (by decide) (by decide) (by decide)

theorem cleanChars_eq_filter (l : List Char) :
    cleanChars l = l.filter (fun c => c != ',' && c != '원' && c != ' ') := by
  induction l with
  | nil => rfl
  | cons c cs ih =>
      rw [cleanChars, List.filter_cons]
      by_cases h : c = ',' ∨ c = '원' ∨ c = ' '
      · have hb : (c != ',' && c != '원' && c != ' ') = false := by
          rcases h with h | h | h <;> subst h <;> rfl
        rw [if_pos h, ih, hb]
        simp
      · push_neg at h
        have hb : (c != ',' && c != '원' && c != ' ') = true := by
          simp [bne_iff_ne, h.1, h.2.1, h.2.2]
        rw [if_neg (by tauto), ih, hb]
        simp

theorem toRow?_eq_some {r : RawRow} {e : Row} (h : toRow? r = some e) :
    r.store_name = some e.store_name ∧ r.product_name = some e.product_name
    ∧ r.product_code = some e.product_code ∧ e.biz = r.biz ∧ e.season = r.season
    ∧ coerceCell r.unit_price = some e.unit_price
    ∧ coerceCell r.week1 = some e.week1 ∧ coerceCell r.week2 = some e.week2
    ∧ coerceCell r.week3 = some e.week3 ∧ coerceCell r.stock = some e.stock
    ∧ coerceCell r.inv_value = some e.inv_value := by
  rw [toRow?] at h
  rcases Option.bind_eq_some.mp h with ⟨sn, hsn, h⟩
  rcases Option.bind_eq_some.mp h with ⟨pn, hpn, h⟩
  rcases Option.bind_eq_some.mp h with ⟨pc, hpc, h⟩
  rcases Option.bind_eq_some.mp h with ⟨up, hup, h⟩
  rcases Option.bind_eq_some.mp h with ⟨w1, hw1, h⟩
  rcases Option.bind_eq_some.mp h with ⟨w2, hw2, h⟩
  rcases Option.bind_eq_some.mp h with ⟨w3, hw3, h⟩
  rcases Option.bind_eq_some.mp h with ⟨sq, hsq, h⟩
  rcases Option.bind_eq_some.mp h with ⟨iv, hiv, h⟩
  cases h
  exact ⟨hsn, hpn, hpc, rfl, rfl, hup, hw1, hw2, hw3, hsq, hiv⟩

/-- C7: normalization drops exactly the rows with a missing identity cell
and the rows in which, after cleaning (commas, the currency token, spaces)
and parsing, any of the six required numeric cells fails to coerce; every
surviving row keeps its identity and descriptive fields unchanged and its
numeric fields are exactly the coerced values. -/
theorem normalizer_drop_spec (t : List RawRow) :
    (∀ s : String, clean s = ⟨s.data.filter (fun c => c != ',' && c != '원' && c != ' ')⟩)
    ∧ (∀ s : String, coerceCell (Cell.text s) = parseNum (clean s))
    ∧ (∀ r ∈ t, identityPresent r = true → numericsOk r = true →
        ∃ e ∈ normalize t,
          r.store_name = some e.store_name ∧ r.product_name = some e.product_name
          ∧ r.product_code = some e.product_code ∧ e.biz = r.biz ∧ e.season = r.season
          ∧ coerceCell r.unit_price = some e.unit_price
          ∧ coerceCell r.week1 = some e.week1 ∧ coerceCell r.week2 = some e.week2
          ∧ coerceCell r.week3 = some e.week3 ∧ coerceCell r.stock = some e.stock
          ∧ coerceCell r.inv_value = some e.inv_value)
    ∧ (∀ e ∈ normalize t, ∃ r ∈ t,
        identityPresent r = true ∧ numericsOk r = true ∧ toRow? r = some e) := by
  refine ⟨?_, fun _ => rfl, ?_, ?_⟩
  · intro s
    rw [clean, cleanChars_eq_filter]
  · intro r hr h1 h2
    have hs : (toRow? r).isSome = true := by rw [toRow?_isSome, h1, h2]; rfl
    rcases Option.isSome_iff_exists.mp hs with ⟨e, he⟩
    exact ⟨e, List.mem_filterMap.mpr ⟨r, List.mem_filter.mpr ⟨hr, h1⟩, he⟩,
      toRow?_eq_some he⟩
  · intro e he
    rcases List.mem_filterMap.mp he with ⟨r, hrf, hre⟩
    rcases List.mem_filter.mp hrf with ⟨hrt, h1⟩
    have hs : (toRow? r).isSome = true := by rw [hre]; rfl
    rw [toRow?_isSome, h1] at hs
    exact ⟨r, hrt, h1, by simpa using hs, hre⟩

theorem normalizer_drop_spec_witness :
    ∃ e ∈ normalize t7,
      rawText.store_name = some e.store_name
      ∧ rawText.product_name = some e.product_name
      ∧ rawText.product_code = some e.product_code
      ∧ e.biz = rawText.biz ∧ e.season = rawText.season
      ∧ coerceCell rawText.unit_price = some e.unit_price
      ∧ coerceCell rawText.week1 = some e.week1
      ∧ coerceCell rawText.week2 = some e.week2
      ∧ coerceCell rawText.week3 = some e.week3
      ∧ coerceCell rawText.stock = some e.stock
      ∧ coerceCell rawText.inv_value = some e.inv_value :=
  (normalizer_drop_spec t7).2.2.1 rawText (by decide) (by decide) (by decide)

/-- C8 counterexample: the per-store summary enumerates stores in order of
first appearance, not in ascending lexical order — a dataset whose stores
appear in the order B, A is summarized in that order, though the
ascending lexical order would be A, B. -/
theorem store_summary_not_lexical :
    (store_analysis d8s).map StoreRow.store = ["B", "A"]
    ∧ pdSorted ((store_analysis d8s).map StoreRow.store) = ["A", "B"] := by
  constructor <;> decide

/-- C8 amended: the business-unit summary lists the canonical codes AP,
FW, EQ first (restricted to the observed codes) followed by the remaining
observed codes in ascending lexical order — observed codes Z, FW, AP, EQ
yield exactly AP, FW, EQ, Z — and the season summary orders the observed
seasons in ascending lexical order; the store summary however enumerates
stores in order of first appearance among the offline rows. -/
theorem group_ordering_spec (data : List Row) :
    all_biz d8biz = ["AP", "FW", "EQ", "Z"]
    ∧ List.Sorted strle (season_keys data)
    ∧ (∀ s : String, s ∈ season_keys data ↔ s ∈ data.map Row.season)
    ∧ (season_keys data).Nodup
    ∧ (∀ b : String, b ∈ all_biz data ↔ b ∈ data.map Row.biz)
    ∧ (all_biz data).Nodup
    ∧ store_keys data = pdUnique ((offline data).map Row.store_name) :=
  ⟨by decide, List.sorted_insertionSort strle _, fun _ => mem_season_keys,
   nodup_season_keys data, fun _ => mem_all_biz, nodup_all_biz data, rfl⟩

/-- C9 amended: with at least six offline stores, the "good top 5 stores"
view selects exactly the stores ranked 2 through 6 by summed inventory
value descending (rank 1 skipped), merely re-sorted for display. -/
theorem top5_skips_rank1 (data : List Row)
    (h : 6 ≤ (store_analysis data).length) :
    (good_top5_stores data).Perm
      (((sortDescBy StoreRow.inv_value (store_analysis data)).drop 1).take 5) := by
  have hlen : 6 ≤ (sortDescBy StoreRow.inv_value (store_analysis data)).length := by
    rw [sortDescBy, (List.perm_insertionSort _ _).length_eq]
    exact h
  rw [good_top5_stores, if_pos hlen]
  exact List.perm_insertionSort _ _

theorem top5_skips_rank1_witness :
    (good_top5_stores dW9).Perm
      (((sortDescBy StoreRow.inv_value (store_analysis dW9)).drop 1).take 5) :=
  top5_skips_rank1 dW9 (by decide)

/-- C9 counterexample: with fewer than six offline stores the view falls
back to the five stores with the most good-status products, which
includes the store ranked 1 by inventory value — the selected set is not
the ranks 2-6 window. -/
theorem top5_includes_rank1_when_few_stores :
    (good_top5_stores d9).map StoreRow.store = ["A", "B"]
    ∧ (((sortDescBy StoreRow.inv_value (store_analysis d9)).drop 1).take 5).map
        StoreRow.store = ["B"] := by
  have hoff : offline d9 = [rowA9, rowB9] := by
    simp [offline, d9, rowA9, rowB9]
  have hkeys : store_keys d9 = ["A", "B"] := by
    rw [store_keys, hoff]
    simp [pdUnique, rowA9, rowB9]
  have hfa : (offline d9).filter (fun r => r.store_name == "A") = [rowA9] := by
    rw [hoff]
    simp [rowA9, rowB9]
  have hfb : (offline d9).filter (fun r => r.store_name == "B") = [rowB9] := by
    rw [hoff]
    simp [rowA9, rowB9]
  have hsa : store_analysis d9 = [storeAgg d9 "A", storeAgg d9 "B"] := by
    rw [store_analysis, hkeys]
    rfl
  have hivA : (storeAgg d9 "A").inv_value = 100 := by
    simp [storeAgg, hfa, rowA9]
  have hivB : (storeAgg d9 "B").inv_value = 50 := by
    simp [storeAgg, hfb, rowB9]
  have hstA : status rowA9 = "good" := by
    norm_num [status, classify_status, coverage_weeks, avg_weekly_sales, rowA9]
  have hstB : status rowB9 = "good" := by
    norm_num [status, classify_status, coverage_weeks, avg_weekly_sales, rowB9]
  have hgA : (storeAgg d9 "A").good_count = 1 := by
    simp [storeAgg, hfa, hstA]
  have hgB : (storeAgg d9 "B").good_count = 1 := by
    simp [storeAgg, hfb, hstB]
  have hsort : sortDescBy StoreRow.inv_value (store_analysis d9)
      = [storeAgg d9 "A", storeAgg d9 "B"] := by
    rw [hsa, sortDescBy]
    simp only [List.insertionSort, List.orderedInsert, hivA, hivB]
    norm_num
  constructor
  · rw [good_top5_stores, if_neg (by rw [hsort]; norm_num), hsa]
    rw [nlargestBy, sortDescBy]
    simp only [List.insertionSort, List.orderedInsert, hgA, hgB]
    norm_num [storeAgg]
  · rw [hsort]
    simp [storeAgg]

/-- C10: the AP and FW highest-coverage top-10 selections and the
coverage-distribution binning only consider rows with coverage_weeks
strictly below 999, so a sentinel row never appears there; the
lowest-coverage selections apply no such filter and can return a sentinel
row. -/
theorem sentinel_excluded_from_coverage_views (data : List Row) :
    (∀ r ∈ ap_high_coverage data, coverage_weeks r < 999)
    ∧ (∀ r ∈ fw_high_coverage data, coverage_weeks r < 999)
    ∧ (∀ r ∈ coverage_data data, coverage_weeks r < 999)
    ∧ (∃ r ∈ ap_low_coverage d10, coverage_weeks r = 999) := by
  have hmem : ∀ (l : List Row) (r : Row), r ∈ nlargestBy 10 coverage_weeks l → r ∈ l := by
    intro l r hr
    rw [nlargestBy, sortDescBy] at hr
    exact (List.perm_insertionSort _ _).mem_iff.mp (List.mem_of_mem_take hr)
  refine ⟨?_, ?_, ?_, ?_⟩
  · intro r hr
    have h := List.mem_filter.mp (hmem _ r hr)
    simpa using h.2
  · intro r hr
    have h := List.mem_filter.mp (hmem _ r hr)
    simpa using h.2
  · intro r hr
    have h := List.mem_filter.mp hr
    simpa using h.2
  · refine ⟨rowSentinel, ?_, ?_⟩
    · have hb : rowSentinel.biz = "AP" := rfl
      simp [ap_low_coverage, ap_rows, d10, nsmallestBy, sortAscBy,
        List.insertionSort, List.orderedInsert, hb]
    · norm_num [coverage_weeks, avg_weekly_sales, rowSentinel]

theorem sentinel_excluded_witness :
    coverage_weeks rowActive < 999 :=
  (sentinel_excluded_from_coverage_views dW10).1 rowActive (by
    have hc : coverage_weeks rowActive < 999 := by
      norm_num [coverage_weeks, avg_weekly_sales, rowActive]
    have hb : rowActive.biz = "AP" := rfl
    simp [ap_high_coverage, ap_rows, nlargestBy, sortDescBy, List.insertionSort,
      List.orderedInsert, dW10, hb, hc])

end InvCov
